import Mathlib

/-!
Verification of the batch job execution and orchestration engine of the
Jade Global Automation Hub backend, shallowly embedded from
`backend/app/services/job_service.py`, `backend/app/tasks.py` and
`backend/app/utils/log_parser.py`.

Timestamps are modelled as natural numbers (`datetime.utcnow()` readings);
dictionaries as association lists with first-match lookup; the database rows
touched by each operation are passed and returned explicitly.
-/

namespace JadeHub

/-- Job status enumeration, from `models.py` (`Job.status`:
pending / running / success / failed / cancelled). -/
inductive Status where
  | pending
  | running
  | success
  | failed
  | cancelled
deriving DecidableEq, Repr

/-- A status is terminal when it is in `['success', 'failed', 'cancelled']`,
the list used by `job_service.update_job_status` and
`job_service.update_batch_job_status`. -/
def Status.isTerminal : Status → Bool
  | .success => true
  | .failed => true
  | .cancelled => true
  | _ => false

/-- The mutable row state touched by the status-transition operations of
`job_service.py`: `Job.status`, `Job.started_at`, `Job.completed_at`.
`none` models a SQL NULL timestamp. -/
structure JobTimes where
  status : Status
  startedAt : Option Nat
  completedAt : Option Nat
deriving DecidableEq, Repr

/-- The two status-mutating store operations of `job_service.py`:
`update_job_status(job_id, s, ...)` and `cancel_job(job_id, user_id)`. -/
inductive JobOp where
  | updStatus (s : Status)
  | cancel
deriving DecidableEq, Repr

/-- One store operation applied to a job row at clock reading `now`, embedded
from `job_service.update_job_status` (sets the requested status; sets
`started_at` on a transition to running only when unset; stamps
`completed_at` on every terminal status) and from `job_service.cancel_job`
(sets status `cancelled`; sets `completed_at` only when unset). -/
def applyJobOp (st : JobTimes) (op : JobOp) (now : Nat) : JobTimes :=
  match op with
  | .updStatus s =>
      let st1 : JobTimes := { st with status := s }
      let st2 : JobTimes :=
        if s = .running ∧ st1.startedAt = none then
          { st1 with startedAt := some now }
        else st1
      if s.isTerminal then { st2 with completedAt := some now } else st2
  | .cancel =>
      let st1 : JobTimes := { st with status := .cancelled }
      if st1.completedAt = none then { st1 with completedAt := some now } else st1

/-- A sequence of store operations, each with its clock reading, applied in
order to a job row. -/
def runJobOps (st : JobTimes) : List (JobOp × Nat) → JobTimes
  | [] => st
  | (op, t) :: rest => runJobOps (applyJobOp st op t) rest

/-- Parent-row state mutated by `job_service.update_batch_job_status`. -/
structure ParentJob where
  status : Status
  startedAt : Option Nat
  completedAt : Option Nat
deriving DecidableEq, Repr

/-- Embedding of `job_service.update_batch_job_status(parent_job_id)`:
recompute the parent batch job's status from its children's statuses.
The counters mirror the source: `completed` counts children in a terminal
status, then if all children completed the parent becomes `success` when
`failed_count == 0`, otherwise `failed` (both the all-failed and the mixed
branch of the source assign `failed`), and `completed_at` is stamped;
otherwise if any child is running the parent is set to `running` and
`started_at` is set when unset. -/
def update_batch_job_status (parent : ParentJob) (children : List Status)
    (now : Nat) : ParentJob :=
  let total := children.length
  let completed := children.countP (fun s => s.isTerminal)
  let successCount := children.countP (fun s => s = .success)
  let failedCount := children.countP (fun s => s = .failed)
  let runningCount := children.countP (fun s => s = .running)
  if completed = total then
    let newStatus : Status :=
      if failedCount = 0 then .success
      else if successCount = 0 then .failed
      else .failed
    { parent with status := newStatus, completedAt := some now }
  else if runningCount > 0 then
    { parent with
        status := .running,
        startedAt := if parent.startedAt = none then some now else parent.startedAt }
  else parent

/-- The `status` field of the dictionary returned by
`tasks.execute_playbook_task`: `success` / `failed` on a normal run,
`cancelled` when the task caught `Terminated`, `error` when its generic
exception handler fired (or the job row was missing). -/
inductive TaskStatus where
  | success
  | failed
  | error
  | cancelled
deriving DecidableEq, Repr

/-- Outcome of one child invocation as seen by the sequential loop of
`tasks.execute_batch_job_task`: either `execute_playbook_task.apply(...)` and
`result.get()` return a result dictionary, or the invocation itself raises
(the loop's own `except Exception` branch). -/
inductive InvokeOutcome where
  | ret (s : TaskStatus)
  | raises
deriving DecidableEq, Repr

/-- What the batch coordination loop of `tasks.execute_batch_job_task` did to
one child job:
* `executed s` — `execute_playbook_task` ran on the child (the task moves the
  child to `running`, then to the terminal status encoded by `s`);
* `cancelledByBatch` — the loop called
  `update_job_status(child, 'cancelled', ...)` on a child it never invoked;
* `errorRecorded` — the invocation raised and the loop appended an
  `\x7b'status': 'error'\x7d` result for this child;
* `leftPending` — the loop ended without ever touching this child. -/
inductive ChildFate where
  | executed (s : TaskStatus)
  | cancelledByBatch
  | errorRecorded
  | leftPending
deriving DecidableEq, Repr

/-- The database status the terminal handler of `tasks.execute_playbook_task`
writes for a child, per result: `success` → success, `failed` → failed,
`error` → failed (the generic exception handler's `update_job_status(job_id,
'failed', ...)` write), `Terminated` → cancelled. The job-missing early
return, which writes nothing, is not part of this mapping. -/
def TaskStatus.dbStatus : TaskStatus → Status
  | .success => .success
  | .failed => .failed
  | .error => .failed
  | .cancelled => .cancelled

/-- The sequence of `Job.status` values a child passes through under each
fate. All children of a batch are created `pending`
(`job_service.create_batch_job`); a normally executed child is moved to
`running` by its task and then to its terminal status; a child cancelled by
the coordinator goes straight from `pending` to `cancelled`; an untouched
child stays `pending`. Where the task's exception handlers are involved — an
executed child with an `error` result, whose handlers can fire before or
after the `running` transition, or an invocation that raised out of the task
entirely — the point of death is unknown, so no trajectory beyond creation
is asserted. -/
def ChildFate.history : ChildFate → List Status
  | .executed .success => [.pending, .running, .success]
  | .executed .failed => [.pending, .running, .failed]
  | .executed .cancelled => [.pending, .running, .cancelled]
  | .executed .error => [.pending]
  | .cancelledByBatch => [.pending, .cancelled]
  | .errorRecorded => [.pending]
  | .leftPending => [.pending]

/-- Embedding of the sequential branch of `tasks.execute_batch_job_task`
(strategy `'sequential'`): children are invoked one at a time in creation
order; after each returned result, if `stop_on_failure` holds and the result
status is `'failed'`, every remaining (not yet invoked) child is set to
`cancelled` and the loop breaks; if the invocation raised, an error result is
recorded and the loop breaks when `stop_on_failure` holds (without touching
the remaining children), otherwise it continues. -/
def seqRun (stop : Bool) : List InvokeOutcome → List ChildFate
  | [] => []
  | .ret s :: rest =>
      if stop ∧ s = .failed then
        .executed s :: rest.map (fun _ => .cancelledByBatch)
      else
        .executed s :: seqRun stop rest
  | .raises :: rest =>
      if stop then
        .errorRecorded :: rest.map (fun _ => .leftPending)
      else
        .errorRecorded :: seqRun stop rest

/-- Embedding of the windowed parallel branch of
`tasks.execute_batch_job_task`: slice the children into consecutive windows
of `c` (`child_job_ids[i:i+c]` for `i in range(0, n, c)`), dispatch each
window as a group and wait for it, and after each window, if
`stop_on_failure` holds and any result of the window is `'failed'`, set every
child of the remaining windows (`child_job_ids[i+c:]`) to `cancelled` and
break. -/
def parRunWindowed (stop : Bool) (c : Nat) : List TaskStatus → List ChildFate
  | [] => []
  | x :: xs =>
      if stop ∧ (x :: xs.take (c - 1)).any (fun s => s = .failed) then
        (x :: xs.take (c - 1)).map .executed
          ++ (xs.drop (c - 1)).map (fun _ => ChildFate.cancelledByBatch)
      else
        (x :: xs.take (c - 1)).map .executed ++ parRunWindowed stop c (xs.drop (c - 1))
termination_by l => l.length
decreasing_by
  simp only [List.length_cons, List.length_drop]
  omega

/-- The `concurrent_limit` entry of `Job.batch_config` as read by
`batch_config.get('concurrent_limit', 5)`: `none` models an absent key
(Python then yields the default `5`), `some none` a key stored with value
`None`, `some (some v)` a stored integer. -/
def effectiveLimit : Option (Option Nat) → Option Nat
  | none => some 5
  | some v => v

/-- The branch condition `if concurrent_limit and concurrent_limit <
len(child_job_ids)` of the parallel strategy: Python truthiness makes `None`
and `0` falsy, so the windowed path is taken exactly when the effective limit
is a nonzero integer strictly below the child count. -/
def usesWindowedPath (entry : Option (Option Nat)) (n : Nat) : Bool :=
  match effectiveLimit entry with
  | none => false
  | some c => c ≠ 0 && c < n

/-- Embedding of the parallel branch of `tasks.execute_batch_job_task`:
windowed execution when `usesWindowedPath`, otherwise a single group running
every child at once (that branch performs no `stop_on_failure` check and
cancels nothing). -/
def parRun (stop : Bool) (entry : Option (Option Nat))
    (outs : List TaskStatus) : List ChildFate :=
  match effectiveLimit entry with
  | some c =>
      if c ≠ 0 ∧ c < outs.length then parRunWindowed stop c outs
      else outs.map .executed
  | none => outs.map .executed

/-- The fields of a `Playbook` row (`models.py`) read by the execution path:
the soft-delete flag `is_active`, the folder-bundle flag `is_folder`, the
designated entry file `main_playbook_file` (nullable) and `file_path`.
The model defines no variables column, so a playbook carries no
default-variable set. -/
structure Playbook where
  name : String
  is_active : Bool
  is_folder : Bool
  main_playbook_file : Option String
  file_path : String
deriving DecidableEq, Repr

/-- The fields of a `Server` row (`models.py`) read by the execution path. -/
structure Server where
  hostname : String
  is_active : Bool
deriving DecidableEq, Repr

/-- The fields of a `Job` row read by `tasks.execute_playbook_task` before
invoking the runner. `extra_vars` is a nullable JSON object, modelled as an
optional association list. -/
structure JobRow where
  extra_vars : Option (List (String × String))
deriving DecidableEq, Repr

/-- First-match lookup in an association list, the access semantics of a
Python dict rendered as a list of key/value pairs. -/
def lookupKey (k : String) : List (String × String) → Option String
  | [] => none
  | (a, b) :: t => if k = a then some b else lookupKey k t

/-- Python-dict `update` on association lists with first-match lookup:
keys of `upd` win over keys of `base`. -/
def pyDictUpdate (base upd : List (String × String)) : List (String × String) :=
  base.filter (fun p => (lookupKey p.1 upd).isNone) ++ upd

/-- `extra_vars = \x7b\x7d; if job.extra_vars: extra_vars.update(job.extra_vars)`
from `tasks.execute_playbook_task` (a `None` or empty mapping is falsy and
leaves the fresh empty dict untouched). -/
def prepare_extra_vars (ev : Option (List (String × String))) :
    List (String × String) :=
  match ev with
  | none => []
  | some l => if l ≠ [] then pyDictUpdate [] l else []

/-- Playbook-level default variables. The `Playbook` model of `models.py`
has no variables column, so this set is empty for every playbook. -/
def playbookDefaultVars (_ : Playbook) : List (String × String) := []

/-- Python truthiness of the nullable string `playbook.main_playbook_file`:
`None` and the empty string are falsy. -/
def truthyStr : Option String → Bool
  | none => false
  | some s => s ≠ ""

/-- The arguments of the single `ansible_runner_instance.run_playbook`
invocation of `tasks.execute_playbook_task`. -/
structure RunInvocation where
  playbookPath : String
  workingDir : Option String
  extraVars : List (String × String)
deriving DecidableEq, Repr

/-- What `tasks.execute_playbook_task` does before the runner call:
* `jobMissing` — `Job.query.get` returned `None`: the task returns an error
  dictionary without touching any status;
* `earlyFailed msg` — `if not playbook or not server:` fired: the job is set
  to `failed` with `msg` and the task returns, the runner never invoked;
* `invoked inv` — both rows were found (their `is_active` flags are not
  consulted): the job is set to `running` and the runner is invoked once
  with `inv`. -/
inductive ExecPhase1 where
  | jobMissing
  | earlyFailed (msg : String)
  | invoked (inv : RunInvocation)
deriving DecidableEq, Repr

/-- Embedding of `tasks.execute_playbook_task` up to and including the
`run_playbook` call: row lookups, the missing-row guard, working-directory
resolution for folder playbooks (`os.path.join` of the bundle root and the
entry file, modelled as slash concatenation) and the extra-vars preparation. -/
def execute_playbook_phase1 (job : Option JobRow) (playbook : Option Playbook)
    (server : Option Server) : ExecPhase1 :=
  match job with
  | none => .jobMissing
  | some j =>
      match playbook, server with
      | some p, some _ =>
          let inv : RunInvocation :=
            if p.is_folder ∧ truthyStr p.main_playbook_file then
              { playbookPath := p.file_path ++ "/" ++ p.main_playbook_file.getD "",
                workingDir := some p.file_path,
                extraVars := prepare_extra_vars j.extra_vars }
            else
              { playbookPath := p.file_path,
                workingDir := none,
                extraVars := prepare_extra_vars j.extra_vars }
          .invoked inv
      | _, _ => .earlyFailed "Playbook or server not found"

/-- The validation performed at job creation by `job_service.create_job`:
it raises `ValueError` unless the playbook row exists with `is_active` set
and the server row exists with `is_active` set. `true` means the job is
created and dispatched. -/
def create_job_accepts (playbook : Option Playbook) (server : Option Server) :
    Bool :=
  (match playbook with | some p => p.is_active | none => false) &&
  (match server with | some s => s.is_active | none => false)

/-- The ESC character opening every ANSI escape sequence. -/
def escChar : Char := Char.ofNat 27

/-- Membership in the single-character alternative `[@-Z\\-_]` of
`AnsibleLogParser.ANSI_PATTERN`: the ranges `0x40`–`0x5A` and
`0x5C`–`0x5F`. -/
def isAnsiSingle (c : Char) : Bool :=
  (0x40 ≤ c.toNat ∧ c.toNat ≤ 0x5A) ∨ (0x5C ≤ c.toNat ∧ c.toNat ≤ 0x5F)

/-- CSI parameter bytes `[0-?]` of `ANSI_PATTERN`. -/
def isCsiParam (c : Char) : Bool := 0x30 ≤ c.toNat ∧ c.toNat ≤ 0x3F

/-- CSI intermediate bytes (range `0x20`–`0x2F`) of `ANSI_PATTERN`. -/
def isCsiInter (c : Char) : Bool := 0x20 ≤ c.toNat ∧ c.toNat ≤ 0x2F

/-- CSI final bytes `[@-~]` of `ANSI_PATTERN`. -/
def isCsiFinal (c : Char) : Bool := 0x40 ≤ c.toNat ∧ c.toNat ≤ 0x7E

/-- Length of the match of `ANSI_PATTERN`'s group right after an ESC, when
the characters following the ESC match it: one character for the single-char
alternative, or `'['`, any run of parameter bytes, any run of intermediate
bytes and one final byte for the CSI alternative. -/
def ansiMatchLen : List Char → Option Nat
  | [] => none
  | c :: cs =>
      if isAnsiSingle c then some 1
      else if c = '[' then
        let params := cs.takeWhile isCsiParam
        let cs1 := cs.dropWhile isCsiParam
        let inters := cs1.takeWhile isCsiInter
        let cs2 := cs1.dropWhile isCsiInter
        match cs2 with
        | f :: _ => if isCsiFinal f then some (2 + params.length + inters.length) else none
        | [] => none
      else none

/-- Embedding of `AnsibleLogParser.strip_ansi_codes`
(`ANSI_PATTERN.sub('', text)`): scan left to right, deleting each match of
the pattern and keeping every other character. -/
def strip_ansi_codes : List Char → List Char
  | [] => []
  | c :: rest =>
      if c = escChar then
        match ansiMatchLen rest with
        | some k => strip_ansi_codes (rest.drop k)
        | none => c :: strip_ansi_codes rest
      else c :: strip_ansi_codes rest
termination_by l => l.length
decreasing_by
  all_goals simp only [List.length_cons, List.length_drop]
  all_goals omega

/-- The characters removed by Python's default `str.strip()` / `str.rstrip()`
(ASCII whitespace). -/
def pyIsSpace (c : Char) : Bool :=
  c = ' ' ∨ c = '\t' ∨ c = '\n' ∨ c = Char.ofNat 0x0B ∨ c = Char.ofNat 0x0C ∨ c = '\r'

/-- Python `str.rstrip()` with no argument. -/
def rstrip (l : List Char) : List Char := (l.reverse.dropWhile pyIsSpace).reverse

/-- `if line.strip():` is falsy exactly when every character of the line is
whitespace. -/
def isBlankLine (l : List Char) : Bool := l.all pyIsSpace

/-- The `log_level` values assigned by `AnsibleLogParser.detect_log_level`. -/
inductive LogLevel where
  | info
  | warning
  | error
  | debug
deriving DecidableEq, Repr

/-- Boolean check that `pat` occurs as a contiguous sublist of the second
argument's prefix. -/
def listStartsWith : List Char → List Char → Bool
  | [], _ => true
  | _ :: _, [] => false
  | p :: ps, c :: cs => p = c && listStartsWith ps cs

/-- Boolean contiguous-substring test, the effect of an unanchored
`re.search` for a literal pattern. -/
def containsSub (pat : List Char) : List Char → Bool
  | [] => listStartsWith pat []
  | s@(_ :: rest) => listStartsWith pat s || containsSub pat rest

/-- Embedding of `AnsibleLogParser.detect_log_level`: the `LEVEL_PATTERNS`
dictionary is scanned in insertion order (ERROR, WARNING, DEBUG), each
pattern a case-insensitive search for its alternatives
(`error|failed|fatal`, `warn|warning|deprecated`, `debug|verbose`), and the
first matching level wins; otherwise INFO. Case-insensitivity is embedded by
lowercasing the line (the patterns are lowercase ASCII literals). -/
def detect_log_level (line : List Char) : LogLevel :=
  let low := line.map Char.toLower
  if containsSub "error".toList low ∨ containsSub "failed".toList low
      ∨ containsSub "fatal".toList low then .error
  else if containsSub "warn".toList low ∨ containsSub "warning".toList low
      ∨ containsSub "deprecated".toList low then .warning
  else if containsSub "debug".toList low ∨ containsSub "verbose".toList low then .debug
  else .info

/-- The fields of one parsed log entry that `tasks.execute_playbook_task`
copies into a `JobLog` row: `line_number`, `content`, `log_level`. -/
structure LogEntry where
  lineNumber : Nat
  content : List Char
  logLevel : LogLevel
deriving DecidableEq, Repr

/-- Embedding of `AnsibleLogParser.parse_line`: strip ANSI codes, detect the
level on the cleaned line, store the right-stripped cleaned line as
content. -/
def parse_line (line : List Char) (n : Nat) : LogEntry :=
  let clean := strip_ansi_codes line
  { lineNumber := n, content := rstrip clean, logLevel := detect_log_level clean }

/-- Python `output.split('\n')`: split on every newline, keeping empty
pieces (and producing one empty piece for the empty string). -/
def splitNl : List Char → List (List Char)
  | [] => [[]]
  | c :: cs =>
      if c = '\n' then [] :: splitNl cs
      else
        match splitNl cs with
        | [] => [[c]]
        | l :: ls => (c :: l) :: ls

/-- The loop of `AnsibleLogParser.parse_output`:
`for idx, line in enumerate(lines, start=start_line + 1)` — the index
advances on every line, but a line is parsed only when `line.strip()` is
truthy, so blank lines are skipped while still consuming their index. -/
def parseLines (idx : Nat) : List (List Char) → List LogEntry
  | [] => []
  | l :: ls =>
      if isBlankLine l then parseLines (idx + 1) ls
      else parse_line l idx :: parseLines (idx + 1) ls

/-- Embedding of `AnsibleLogParser.parse_output(output)` at the default
`start_line=0`, as called by `tasks.execute_playbook_task` on the captured
stdout string. -/
def parse_output (output : List Char) : List LogEntry :=
  parseLines 1 (splitNl output)

/-- The persistence step of `tasks.execute_playbook_task`: the parsed
entries are collected into `logs_to_insert` and written by a single
`job_service.add_job_logs_bulk` call when nonempty (no call at all when
empty). The value is the list of bulk-write calls issued, each with its
payload. -/
def bulkLogWrites (entries : List LogEntry) : List (List LogEntry) :=
  if entries = [] then [] else [entries]

/-! ## Claim C1 — parent batch status aggregation -/

/-- C1 counterexample: the claim says the recomputed parent status is
`success` iff every child's status is `success`. But
`update_batch_job_status` decides `success` by `failed_count == 0` once all
children are terminal, so a batch whose only child was `cancelled` is
recomputed to `success` although that child is not `success`. -/
theorem claim_C1_counterexample :
    (update_batch_job_status ⟨Status.running, some 0, none⟩ [Status.cancelled] 7).status
      = Status.success
    ∧ ¬ (∀ s ∈ [Status.cancelled], s = Status.success) := by
  decide

/-- C1 amended: once every child is terminal, the recomputed parent status is
`success` iff no child is `failed` (cancelled children count towards
success), and `failed` iff at least one child is `failed` (including mixed
outcomes); `completed_at` is stamped at that recomputation. While any child
is still `running`, the parent is set to `running`. -/
theorem claim_C1_amended (parent : ParentJob) (children : List Status) (now : Nat) :
    ((∀ s ∈ children, s.isTerminal = true) →
      ((update_batch_job_status parent children now).status = Status.success ↔
        ∀ s ∈ children, s ≠ Status.failed)
      ∧ ((update_batch_job_status parent children now).status = Status.failed ↔
        ∃ s ∈ children, s = Status.failed)
      ∧ (update_batch_job_status parent children now).completedAt = some now)
    ∧ (Status.running ∈ children →
      (update_batch_job_status parent children now).status = Status.running) := by
  constructor
  · intro hterm
    have hcompleted : children.countP (fun s => s.isTerminal) = children.length :=
      List.countP_eq_length.mpr (by simpa using hterm)
    have hcomp : (update_batch_job_status parent children now).completedAt = some now := by
      simp [update_batch_job_status, hcompleted]
    by_cases hf : children.countP (fun s => s = Status.failed) = 0
    · have hnofail : ∀ s ∈ children, s ≠ Status.failed := by
        intro s hs
        have := (List.countP_eq_zero.mp hf) s hs
        simpa using this
      have hstat : (update_batch_job_status parent children now).status = Status.success := by
        simp [update_batch_job_status, hcompleted, hf]
      refine ⟨?_, ?_, hcomp⟩
      · rw [hstat]
        exact iff_of_true rfl hnofail
      · rw [hstat]
        constructor
        · intro h
          cases h
        · rintro ⟨s, hs, rfl⟩
          exact absurd rfl (hnofail _ hs)
    · have hexists : ∃ s ∈ children, s = Status.failed := by
        have hpos : 0 < children.countP (fun s => s = Status.failed) :=
          Nat.pos_of_ne_zero hf
        simpa using List.countP_pos_iff.mp hpos
      have hstat : (update_batch_job_status parent children now).status = Status.failed := by
        simp [update_batch_job_status, hcompleted, hf]
      refine ⟨?_, ?_, hcomp⟩
      · rw [hstat]
        constructor
        · intro h
          cases h
        · intro hall
          rcases hexists with ⟨s, hs, rfl⟩
          exact absurd rfl (hall _ hs)
      · rw [hstat]
        exact iff_of_true rfl hexists
  · intro hrun
    have hnotall : children.countP (fun s => s.isTerminal) ≠ children.length := by
      intro hall
      have := (List.countP_eq_length.mp hall) Status.running hrun
      simp [Status.isTerminal] at this
    have hpos : 0 < children.countP (fun s => s = Status.running) :=
      List.countP_pos_iff.mpr ⟨Status.running, hrun, by simp⟩
    simp [update_batch_job_status, hnotall, hpos]

/-- C1 witness: a mixed success/failed batch is recomputed to `failed`, and a
batch with a running child to `running`. -/
theorem claim_C1_witness :
    (update_batch_job_status ⟨Status.pending, none, none⟩
        [Status.success, Status.failed] 3).status = Status.failed
    ∧ (update_batch_job_status ⟨Status.pending, none, none⟩
        [Status.running] 3).status = Status.running := by
  refine ⟨?_, ?_⟩
  · exact ((claim_C1_amended ⟨Status.pending, none, none⟩
      [Status.success, Status.failed] 3).1 (by decide)).2.1.mpr
      ⟨Status.failed, by simp, rfl⟩
  · exact (claim_C1_amended ⟨Status.pending, none, none⟩
      [Status.running] 3).2 (by simp)

/-! ## Claim C5 — timestamp monotonicity -/

/-- C5 counterexample: the claim says `started_at`/`completed_at` are never
overwritten once set (with cancellation as the only stated exception). But
`update_job_status` stamps `completed_at` on every terminal transition, so a
`failed` update at time 1 followed by a `cancelled` update at time 2
overwrites `completed_at`; and a cancellation at time 1 followed by a
`running` update at time 2 leaves `started_at = 2 > 1 = completed_at`. -/
theorem claim_C5_counterexample :
    (applyJobOp ⟨Status.pending, none, none⟩ (JobOp.updStatus Status.failed) 1).completedAt
      = some 1
    ∧ (applyJobOp (applyJobOp ⟨Status.pending, none, none⟩
        (JobOp.updStatus Status.failed) 1) (JobOp.updStatus Status.cancelled) 2).completedAt
      = some 2
    ∧ some (2 : Nat) ≠ some 1
    ∧ (applyJobOp (applyJobOp ⟨Status.pending, none, none⟩ JobOp.cancel 1)
        (JobOp.updStatus Status.running) 2).startedAt = some 2
    ∧ (applyJobOp (applyJobOp ⟨Status.pending, none, none⟩ JobOp.cancel 1)
        (JobOp.updStatus Status.running) 2).completedAt = some 1
    ∧ ¬ (2 : Nat) ≤ 1 := by
  decide

/-- C5 amended: `started_at` is never overwritten once set; `completed_at`,
once set, never becomes unset, and cancellation never overwrites it (while
it does set it when unset, even on a job whose `started_at` was never set);
but `update_job_status` re-stamps `completed_at` with the current time on
every terminal transition, so across a sequence of operations `completed_at`
can move forward, and `started_at ≤ completed_at` can fail when a job is
cancelled before ever running and later updated to `running`. -/
theorem claim_C5_amended (st : JobTimes) (op : JobOp) (now : Nat) :
    (∀ v, st.startedAt = some v → (applyJobOp st op now).startedAt = some v)
    ∧ (∀ v, st.completedAt = some v →
        (applyJobOp st op now).completedAt = some v
        ∨ (applyJobOp st op now).completedAt = some now)
    ∧ (∀ v, st.completedAt = some v →
        (applyJobOp st JobOp.cancel now).completedAt = some v)
    ∧ (st.completedAt = none →
        (applyJobOp st JobOp.cancel now).completedAt = some now) := by
  refine ⟨?_, ?_, ?_, ?_⟩
  · intro v hv
    cases op with
    | updStatus s =>
        cases s <;> by_cases h1 : st.startedAt = none <;>
          simp [applyJobOp, Status.isTerminal, h1, hv] <;>
            simp [h1] at hv
    | cancel =>
        by_cases h2 : st.completedAt = none <;> simp [applyJobOp, h2, hv]
  · intro v hv
    cases op with
    | updStatus s =>
        cases s <;> by_cases h1 : st.startedAt = none <;>
          simp [applyJobOp, Status.isTerminal, h1, hv]
    | cancel =>
        have h2 : ¬ st.completedAt = none := by
          rw [hv]
          simp
        simp [applyJobOp, h2, hv]
  · intro v hv
    have h2 : ¬ st.completedAt = none := by
      rw [hv]
      simp
    simp [applyJobOp, h2, hv]
  · intro hnone
    simp [applyJobOp, hnone]

/-- C5 amendment witness at a concrete job row and operation. -/
theorem claim_C5_witness :
    (applyJobOp ⟨Status.running, some 4, none⟩ (JobOp.updStatus Status.success) 9).startedAt
      = some 4
    ∧ (applyJobOp ⟨Status.pending, none, some 6⟩ JobOp.cancel 9).completedAt = some 6 := by
  refine ⟨?_, ?_⟩
  · exact (claim_C5_amended ⟨Status.running, some 4, none⟩
      (JobOp.updStatus Status.success) 9).1 4 rfl
  · exact (claim_C5_amended ⟨Status.pending, none, some 6⟩
      (JobOp.updStatus Status.pending) 9).2.2.1 6 rfl

/-! ## Claim C8 — terminal statuses are not guarded -/

/-- C8 counterexample: the claim says no core operation transitions a job out
of a terminal status, and in particular cancelling a `success` or `failed`
job leaves it unchanged. But `cancel_job` sets `cancelled` unconditionally:
cancelling a `success` job changes its status. -/
theorem claim_C8_counterexample :
    (applyJobOp ⟨Status.success, some 1, some 2⟩ JobOp.cancel 9).status = Status.cancelled
    ∧ Status.cancelled ≠ Status.success := by
  decide

/-- C8 amended: neither store operation guards terminal statuses —
`update_job_status` sets exactly the requested status whatever the current
one, and `cancel_job` always sets `cancelled` (preserving only an already-set
`completed_at`), so a terminal job can still be transitioned. -/
theorem claim_C8_amended (st : JobTimes) (s : Status) (now : Nat) :
    (applyJobOp st (JobOp.updStatus s) now).status = s
    ∧ (applyJobOp st JobOp.cancel now).status = Status.cancelled := by
  constructor
  · cases s <;> by_cases h1 : st.startedAt = none <;>
      simp [applyJobOp, Status.isTerminal, h1]
  · by_cases h2 : st.completedAt = none <;> simp [applyJobOp, h2]

/-! ## Claim C2 — sequential stop-on-failure cancels the remaining children -/

/-- C2 counterexample: the claim says that whenever the k-th child terminates
as `failed`, the remaining children are cancelled and the loop stops. But the
loop keys on the returned result dictionary, not on the child's database
status: a child whose task hits its generic exception handler is written
DB-`failed` (`TaskStatus.dbStatus .error = failed`) yet returns result status
`'error'`, which the `== 'failed'` check does not match — so the next child
is executed, not cancelled, and the loop does not stop. -/
theorem claim_C2_counterexample :
    TaskStatus.dbStatus TaskStatus.error = Status.failed
    ∧ seqRun true [InvokeOutcome.ret TaskStatus.error, InvokeOutcome.ret TaskStatus.success]
      = [ChildFate.executed TaskStatus.error, ChildFate.executed TaskStatus.success]
    ∧ ChildFate.executed TaskStatus.success ≠ ChildFate.cancelledByBatch := by
  decide

/-- C2 amended: in a sequential batch with `stop_on_failure` true, when the
children before the failing one completed without a `'failed'` result and the
next invocation returns result status `'failed'` (the task's normal
playbook-failure path — not the `'error'` result of its exception paths,
which leaves a DB-`failed` child without triggering the stop), the loop marks
every remaining child `cancelled` — each goes straight from `pending` to
`cancelled`, never through `running` — no further child is invoked, and the
already-completed children keep their own executed outcomes. -/
theorem claim_C2_thm (ss : List TaskStatus) (post : List InvokeOutcome)
    (hss : ∀ s ∈ ss, s ≠ TaskStatus.failed) :
    seqRun true (ss.map InvokeOutcome.ret ++ InvokeOutcome.ret TaskStatus.failed :: post)
      = ss.map ChildFate.executed ++ ChildFate.executed TaskStatus.failed ::
          post.map (fun _ => ChildFate.cancelledByBatch)
    ∧ ∀ f ∈ post.map (fun _ => ChildFate.cancelledByBatch),
        f.history = [Status.pending, Status.cancelled] ∧ Status.running ∉ f.history := by
  constructor
  · induction ss with
    | nil => simp [seqRun]
    | cons s ss ih =>
        have hs : ¬ (s = TaskStatus.failed) := hss s (by simp)
        have ihss : ∀ x ∈ ss, x ≠ TaskStatus.failed := fun x hx => hss x (by simp [hx])
        simpa [seqRun, hs] using ih ihss
  · intro f hf
    rw [List.mem_map] at hf
    obtain ⟨-, -, rfl⟩ := hf
    refine ⟨rfl, ?_⟩
    simp [ChildFate.history]

/-- C2 witness: three sequential children, the second fails — the third is
cancelled without running. -/
theorem claim_C2_witness :
    seqRun true [InvokeOutcome.ret TaskStatus.success, InvokeOutcome.ret TaskStatus.failed,
        InvokeOutcome.ret TaskStatus.success]
      = [ChildFate.executed TaskStatus.success, ChildFate.executed TaskStatus.failed,
          ChildFate.cancelledByBatch]
    ∧ Status.running ∉ ChildFate.cancelledByBatch.history := by
  have h := claim_C2_thm [TaskStatus.success] [InvokeOutcome.ret TaskStatus.success]
    (by decide)
  refine ⟨by simpa using h.1, (h.2 ChildFate.cancelledByBatch (by simp)).2⟩

/-! ## Claim C10 — a raising invocation stops the loop without cancelling -/

/-- C10 confirmed: in the sequential loop with `stop_on_failure` true, when an
invocation raises (is caught by the loop's own handler) instead of returning
a `failed` result, an error result is recorded and the loop breaks, but the
remaining children are left `pending` — none of them is transitioned to
`cancelled`. -/
theorem claim_C10_thm (ss : List TaskStatus) (post : List InvokeOutcome)
    (hss : ∀ s ∈ ss, s ≠ TaskStatus.failed) :
    seqRun true (ss.map InvokeOutcome.ret ++ InvokeOutcome.raises :: post)
      = ss.map ChildFate.executed ++ ChildFate.errorRecorded ::
          post.map (fun _ => ChildFate.leftPending)
    ∧ ∀ f ∈ post.map (fun _ => ChildFate.leftPending),
        f.history = [Status.pending] ∧ f ≠ ChildFate.cancelledByBatch := by
  constructor
  · induction ss with
    | nil => simp [seqRun]
    | cons s ss ih =>
        have hs : ¬ (s = TaskStatus.failed) := hss s (by simp)
        have ihss : ∀ x ∈ ss, x ≠ TaskStatus.failed := fun x hx => hss x (by simp [hx])
        simpa [seqRun, hs] using ih ihss
  · intro f hf
    rw [List.mem_map] at hf
    obtain ⟨-, -, rfl⟩ := hf
    exact ⟨rfl, by simp⟩

/-- C10 witness: the second of three sequential invocations raises — the
third child is left pending, not cancelled. -/
theorem claim_C10_witness :
    seqRun true [InvokeOutcome.ret TaskStatus.success, InvokeOutcome.raises,
        InvokeOutcome.ret TaskStatus.success]
      = [ChildFate.executed TaskStatus.success, ChildFate.errorRecorded,
          ChildFate.leftPending]
    ∧ ChildFate.leftPending ≠ ChildFate.cancelledByBatch := by
  have h := claim_C10_thm [TaskStatus.success] [InvokeOutcome.ret TaskStatus.success]
    (by decide)
  refine ⟨by simpa using h.1, (h.2 ChildFate.leftPending (by simp)).2⟩

/-! ## Claim C3 — windowed parallel execution with stop-on-failure -/

/-- A full window with no failed member is executed wholesale and the loop
moves on to the rest, whatever `stop_on_failure` is. -/
lemma parRunWindowed_append_window (stop : Bool) (c : Nat) (w l : List TaskStatus)
    (hc : 0 < c) (hlen : w.length = c) (hok : TaskStatus.failed ∉ w) :
    parRunWindowed stop c (w ++ l) = w.map ChildFate.executed ++ parRunWindowed stop c l := by
  cases w with
  | nil =>
      simp at hlen
      omega
  | cons x xs =>
      have hxs : xs.length = c - 1 := by
        simp at hlen
        omega
      have htake : (xs ++ l).take (c - 1) = xs := by
        rw [← hxs]
        exact List.take_left xs l
      have hdrop : (xs ++ l).drop (c - 1) = l := by
        rw [← hxs]
        exact List.drop_left xs l
      have hany : ((x :: xs).any (fun s => s = TaskStatus.failed)) = false := by
        simp only [List.any_eq_false, decide_eq_true_eq]
        intro s hs hfail
        exact hok (hfail ▸ hs)
      have hcond : ¬ (stop = true ∧
          ((x :: xs).any (fun s => s = TaskStatus.failed)) = true) := by
        rw [hany]
        simp
      rw [List.cons_append, parRunWindowed, htake, hdrop, if_neg hcond]

/-- When no child of the input fails, every window completes and every child
ends up executed. -/
lemma parRunWindowed_no_fail (stop : Bool) (c : Nat) (outs : List TaskStatus)
    (h : TaskStatus.failed ∉ outs) :
    parRunWindowed stop c outs = outs.map ChildFate.executed := by
  match outs with
  | [] => simp [parRunWindowed]
  | x :: xs =>
      have hany : ((x :: xs.take (c - 1)).any (fun s => s = TaskStatus.failed)) = false := by
        simp only [List.any_eq_false, decide_eq_true_eq]
        intro s hs hfail
        subst hfail
        rcases List.mem_cons.mp hs with h1 | h1
        · exact h (by simp [h1])
        · exact h (List.mem_cons_of_mem x (List.mem_of_mem_take h1))
      have hcond : ¬ (stop = true ∧
          ((x :: xs.take (c - 1)).any (fun s => s = TaskStatus.failed)) = true) := by
        rw [hany]
        simp
      have hrest : TaskStatus.failed ∉ xs.drop (c - 1) := fun hm =>
        h (List.mem_cons_of_mem x (List.mem_of_mem_drop hm))
      rw [parRunWindowed, if_neg hcond,
        parRunWindowed_no_fail stop c (xs.drop (c - 1)) hrest,
        ← List.map_append, List.cons_append, List.take_append_drop]
termination_by outs.length
decreasing_by
  simp only [List.length_cons, List.length_drop]
  omega

/-- C3 counterexample: the claim says that whenever any child of a completed
window is `failed`, the later windows are cancelled and no further window
runs. But the check `any(r.get('status') == 'failed' ...)` looks at the
returned result dictionaries: a child written DB-`failed` through the task's
exception path (`TaskStatus.dbStatus .error = failed`) returns `'error'`, the
window check does not match, and the next window is dispatched — its child is
executed, not cancelled. -/
theorem claim_C3_counterexample :
    TaskStatus.dbStatus TaskStatus.error = Status.failed
    ∧ parRunWindowed true 2 [TaskStatus.error, TaskStatus.success, TaskStatus.success]
      = [ChildFate.executed TaskStatus.error, ChildFate.executed TaskStatus.success,
         ChildFate.executed TaskStatus.success]
    ∧ ChildFate.executed TaskStatus.success ≠ ChildFate.cancelledByBatch := by
  refine ⟨by decide, ?_, by decide⟩
  norm_num [parRunWindowed]
  decide

/-- C3 amended: the parallel strategy with `stop_on_failure` true processes
the children in consecutive creation-order windows of size `c`; completed
windows with no `'failed'` result are executed wholesale one after another;
the first window containing a `'failed'` result (the task's normal
playbook-failure path — a child DB-`failed` through the exception path
returns `'error'` and does not count) is still fully executed, after which
every child of every not-yet-started window is transitioned to `cancelled`
(never entering `running`) and no further window runs; and when no result at
all is `'failed'`, every window runs and every child is executed. -/
theorem claim_C3_thm (c : Nat) (hc : 0 < c) (ws : List (List TaskStatus))
    (hwlen : ∀ w ∈ ws, w.length = c) (hwok : ∀ w ∈ ws, TaskStatus.failed ∉ w)
    (rest : List TaskStatus) (hfail : TaskStatus.failed ∈ rest.take c) :
    parRunWindowed true c (ws.flatten ++ rest)
      = (ws.flatten).map ChildFate.executed ++ ((rest.take c).map ChildFate.executed
        ++ (rest.drop c).map (fun _ => ChildFate.cancelledByBatch))
    ∧ (∀ f ∈ (rest.drop c).map (fun _ => ChildFate.cancelledByBatch),
        f.history = [Status.pending, Status.cancelled] ∧ Status.running ∉ f.history)
    ∧ (∀ outs : List TaskStatus, TaskStatus.failed ∉ outs →
        parRunWindowed true c outs = outs.map ChildFate.executed) := by
  refine ⟨?_, ?_, fun outs h => parRunWindowed_no_fail true c outs h⟩
  · have hstep : parRunWindowed true c rest
        = (rest.take c).map ChildFate.executed
          ++ (rest.drop c).map (fun _ => ChildFate.cancelledByBatch) := by
      cases rest with
      | nil => simp at hfail
      | cons x xs =>
          obtain ⟨m, rfl⟩ : ∃ m, c = m + 1 := ⟨c - 1, by omega⟩
          have hany : ((x :: xs.take (m + 1 - 1)).any (fun s => s = TaskStatus.failed))
              = true := by
            rw [List.any_eq_true]
            refine ⟨TaskStatus.failed, ?_, by simp⟩
            simpa [List.take_succ_cons] using hfail
          rw [parRunWindowed, if_pos ⟨rfl, hany⟩]
          simp [List.take_succ_cons, List.drop_succ_cons]
    clear hfail
    induction ws with
    | nil => simpa using hstep
    | cons w ws ih =>
        have hw1 : w.length = c := hwlen w (by simp)
        have hw2 : TaskStatus.failed ∉ w := hwok w (by simp)
        have ih1 : ∀ u ∈ ws, u.length = c := fun u hu => hwlen u (by simp [hu])
        have ih2 : ∀ u ∈ ws, TaskStatus.failed ∉ u := fun u hu => hwok u (by simp [hu])
        rw [List.flatten_cons, List.append_assoc,
          parRunWindowed_append_window true c w (ws.flatten ++ rest) hc hw1 hw2,
          ih ih1 ih2]
        simp [List.map_append]
  · intro f hf
    rw [List.mem_map] at hf
    obtain ⟨-, -, rfl⟩ := hf
    exact ⟨rfl, by simp [ChildFate.history]⟩

/-- C3 witness: five children, window size 2 — the first window succeeds, the
second contains a failure, the fifth child (third window) is cancelled. -/
theorem claim_C3_witness :
    parRunWindowed true 2 [TaskStatus.success, TaskStatus.success, TaskStatus.failed,
        TaskStatus.success, TaskStatus.success]
      = [ChildFate.executed TaskStatus.success, ChildFate.executed TaskStatus.success,
         ChildFate.executed TaskStatus.failed, ChildFate.executed TaskStatus.success,
         ChildFate.cancelledByBatch] := by
  have h := (claim_C3_thm 2 (by decide) [[TaskStatus.success, TaskStatus.success]]
    (by decide) (by decide)
    [TaskStatus.failed, TaskStatus.success, TaskStatus.success] (by decide)).1
  simpa using h

/-! ## Claim C9 — the effective concurrency limit and the single-group path -/

/-- C9 counterexample: the claim says an absent `concurrent_limit` means all
children run in a single group. But `batch_config.get('concurrent_limit', 5)`
defaults an absent key to 5, so a six-child parallel batch with no stored
limit takes the windowed path — and with `stop_on_failure` and a failure in
the first window, the sixth child is cancelled instead of dispatched. -/
theorem claim_C9_counterexample :
    usesWindowedPath none 6 = true
    ∧ parRun true none [TaskStatus.failed, TaskStatus.success, TaskStatus.success,
        TaskStatus.success, TaskStatus.success, TaskStatus.success]
      = [ChildFate.executed TaskStatus.failed, ChildFate.executed TaskStatus.success,
         ChildFate.executed TaskStatus.success, ChildFate.executed TaskStatus.success,
         ChildFate.executed TaskStatus.success, ChildFate.cancelledByBatch]
    ∧ ChildFate.cancelledByBatch ≠ ChildFate.executed TaskStatus.success := by
  refine ⟨by decide, ?_, by decide⟩
  norm_num [parRun, effectiveLimit, parRunWindowed]

/-- C9 amended: the windowed execution path is taken exactly when the
effective `concurrent_limit` — the stored value when the key is present, the
default 5 when it is absent — is a nonzero integer strictly below the number
of children; otherwise (explicit `None`, explicit 0, or effective limit ≥
child count) all children are dispatched at once in a single group, every
one of them executed with no `stop_on_failure` cancellation. An absent key
therefore does not mean unbounded concurrency: with more than five children
it yields windows of five. -/
theorem claim_C9_amended (entry : Option (Option Nat)) (stop : Bool)
    (outs : List TaskStatus) :
    (usesWindowedPath entry outs.length = true ↔
      ∃ c, effectiveLimit entry = some c ∧ 0 < c ∧ c < outs.length)
    ∧ (usesWindowedPath entry outs.length = false →
        parRun stop entry outs = outs.map ChildFate.executed)
    ∧ effectiveLimit none = some 5 := by
  refine ⟨?_, ?_, rfl⟩
  · cases hef : effectiveLimit entry with
    | none => simp [usesWindowedPath, hef]
    | some c =>
        simp only [usesWindowedPath, hef, Bool.and_eq_true, decide_eq_true_eq,
          ne_eq, Option.some.injEq]
        constructor
        · rintro ⟨h1, h2⟩
          exact ⟨c, rfl, by omega, h2⟩
        · rintro ⟨c2, rfl, h1, h2⟩
          exact ⟨by omega, h2⟩
  · intro h
    rw [parRun]
    cases hef : effectiveLimit entry with
    | none => rfl
    | some c =>
        simp only [usesWindowedPath, hef, Bool.and_eq_false_iff] at h
        have hcond : ¬ (c ≠ 0 ∧ c < outs.length) := by
          rcases h with h | h
          · intro hcl
            exact hcl.1 (by simpa using h)
          · intro hcl
            exact absurd hcl.2 (by simpa using h)
        simp [hef, hcond]

/-- C9 amendment witness: an explicit `concurrent_limit` of 0 sends a
two-child batch down the single-group path — both children are executed even
though the first failed and `stop_on_failure` is set. -/
theorem claim_C9_witness :
    parRun true (some (some 0)) [TaskStatus.failed, TaskStatus.success]
      = [ChildFate.executed TaskStatus.failed, ChildFate.executed TaskStatus.success] := by
  have h := (claim_C9_amended (some (some 0)) true
    [TaskStatus.failed, TaskStatus.success]).2.1 (by decide)
  simpa using h

/-! ## Claim C4 — missing vs inactive playbook/server at execution time -/

/-- C4 counterexample: the claim says a job whose playbook exists but is
inactive (soft-deleted) is failed without ever invoking the runner. But
`execute_playbook_task` only checks `if not playbook or not server:` — the
`is_active` flags are never consulted — so with an inactive-but-present
playbook the runner is still invoked. -/
theorem claim_C4_counterexample :
    execute_playbook_phase1 (some ⟨some []⟩)
        (some ⟨"deploy", false, false, none, "/playbooks/deploy.yml"⟩)
        (some ⟨"web01", true⟩)
      = ExecPhase1.invoked ⟨"/playbooks/deploy.yml", none, []⟩
    ∧ Playbook.is_active ⟨"deploy", false, false, none, "/playbooks/deploy.yml"⟩ = false
    ∧ ExecPhase1.invoked ⟨"/playbooks/deploy.yml", none, []⟩
        ≠ ExecPhase1.earlyFailed "Playbook or server not found" := by
  refine ⟨rfl, rfl, by simp⟩

/-- C4 amended: `ExecuteJob` fails early — job set to `failed` with error
"Playbook or server not found", runner never invoked — exactly when the
playbook row or the server row is missing; when both rows exist the runner is
invoked regardless of their `is_active` flags. Inactivity is enforced only at
job creation, where `create_job` accepts exactly an existing active playbook
paired with an existing active server. -/
theorem claim_C4_amended (j : JobRow) (playbook : Option Playbook)
    (server : Option Server) :
    (execute_playbook_phase1 (some j) playbook server
        = ExecPhase1.earlyFailed "Playbook or server not found"
      ↔ playbook = none ∨ server = none)
    ∧ ((∃ inv, execute_playbook_phase1 (some j) playbook server = ExecPhase1.invoked inv)
      ↔ playbook ≠ none ∧ server ≠ none)
    ∧ (create_job_accepts playbook server = true ↔
        (∃ p, playbook = some p ∧ p.is_active = true)
        ∧ (∃ sv, server = some sv ∧ sv.is_active = true)) := by
  cases playbook <;> cases server <;>
    simp [execute_playbook_phase1, create_job_accepts]

/-! ## Claim C6 — variables passed to the runner -/

/-- Keys present in the updating dict win on collision: `pyDictUpdate` returns
the updating dict's value for any key it maps. -/
lemma pyDictUpdate_lookup_right (base upd : List (String × String)) (k : String)
    (v : String) (h : lookupKey k upd = some v) :
    lookupKey k (pyDictUpdate base upd) = some v := by
  induction base with
  | nil => simpa [pyDictUpdate] using h
  | cons p t ih =>
      obtain ⟨a, b⟩ := p
      by_cases hP : (lookupKey a upd).isNone
      · have hka : ¬ (k = a) := by
          intro hk
          rw [hk] at h
          rw [h] at hP
          simp at hP
        simpa [pyDictUpdate, lookupKey, hP, hka] using ih
      · simpa [pyDictUpdate, lookupKey, hP] using ih

/-- C6 confirmed: the variables of the single runner invocation are the
playbook-level default variables merged with the job's `extra_vars` — and on
any key collision the updating (job-level) value wins. The `Playbook` model
carries no variables column, so the playbook-level default set is the empty
mapping and the merge degenerates to the job's own `extra_vars`. -/
theorem claim_C6_thm (j : JobRow) (p : Playbook) (sv : Server) (inv : RunInvocation)
    (h : execute_playbook_phase1 (some j) (some p) (some sv) = ExecPhase1.invoked inv) :
    inv.extraVars = pyDictUpdate (playbookDefaultVars p) (prepare_extra_vars j.extra_vars)
    ∧ ∀ base upd : List (String × String), ∀ k v : String,
        lookupKey k upd = some v → lookupKey k (pyDictUpdate base upd) = some v := by
  refine ⟨?_, fun base upd k v hv => pyDictUpdate_lookup_right base upd k v hv⟩
  have hvars : prepare_extra_vars j.extra_vars = inv.extraVars := by
    simp only [execute_playbook_phase1] at h
    by_cases hf : p.is_folder = true ∧ truthyStr p.main_playbook_file = true
    · rw [if_pos hf] at h
      injection h with h2
      subst h2
      rfl
    · rw [if_neg hf] at h
      injection h with h2
      subst h2
      rfl
  rw [← hvars]
  simp [pyDictUpdate, playbookDefaultVars]

/-- C6 witness: a job with `extra_vars` mapping env to prod — the runner
receives exactly that mapping, and an update always overrides a colliding
base key. -/
theorem claim_C6_witness :
    RunInvocation.extraVars ⟨"/pb/site.yml", none, [("env", "prod")]⟩
      = pyDictUpdate (playbookDefaultVars ⟨"site", true, false, none, "/pb/site.yml"⟩)
          (prepare_extra_vars (some [("env", "prod")]))
    ∧ lookupKey "env" (pyDictUpdate [("env", "dev")] [("env", "prod")]) = some "prod" := by
  have h := claim_C6_thm ⟨some [("env", "prod")]⟩
    ⟨"site", true, false, none, "/pb/site.yml"⟩ ⟨"db01", true⟩
    ⟨"/pb/site.yml", none, [("env", "prod")]⟩ rfl
  exact ⟨h.1, h.2 [("env", "dev")] [("env", "prod")] "env" "prod" rfl⟩

/-! ## Claim C7 — log line numbering, ANSI stripping, bulk write -/

/-- Every entry produced by the parsing loop comes from a non-blank line of
the input, carries that line's 1-origin-shifted index as its line number, and
is exactly `parse_line` of that line. -/
lemma parseLines_mem (ls : List (List Char)) : ∀ (idx : Nat), ∀ e ∈ parseLines idx ls,
    ∃ i l, ls.get? i = some l ∧ e.lineNumber = idx + i ∧ isBlankLine l = false
      ∧ e = parse_line l (idx + i) := by
  induction ls with
  | nil =>
      intro idx e he
      simp [parseLines] at he
  | cons l ls ih =>
      intro idx e he
      by_cases hb : isBlankLine l
      · rw [parseLines, if_pos hb] at he
        obtain ⟨i, l2, h1, h2, h3, h4⟩ := ih (idx + 1) e he
        refine ⟨i + 1, l2, by simpa using h1, by omega, h3, ?_⟩
        rw [h4]
        congr 1
        omega
      · rw [parseLines, if_neg hb] at he
        rcases List.mem_cons.mp he with h1 | h1
        · refine ⟨0, l, by simp, by simp [h1, parse_line], by simpa using hb, ?_⟩
          simpa using h1
        · obtain ⟨i, l2, h1, h2, h3, h4⟩ := ih (idx + 1) e h1
          refine ⟨i + 1, l2, by simpa using h1, by omega, h3, ?_⟩
          rw [h4]
          congr 1
          omega

/-- Line numbers produced from start index `idx` are at least `idx`. -/
lemma parseLines_ge (ls : List (List Char)) (idx : Nat) (e : LogEntry)
    (he : e ∈ parseLines idx ls) : idx ≤ e.lineNumber := by
  obtain ⟨i, l, -, h2, -, -⟩ := parseLines_mem ls idx e he
  omega

/-- The produced line numbers are strictly increasing. -/
lemma parseLines_chain (ls : List (List Char)) : ∀ (idx : Nat),
    List.Chain' (fun a b => a < b) ((parseLines idx ls).map LogEntry.lineNumber) := by
  induction ls with
  | nil =>
      intro idx
      simp [parseLines]
  | cons l ls ih =>
      intro idx
      by_cases hb : isBlankLine l
      · rw [parseLines, if_pos hb]
        exact ih (idx + 1)
      · rw [parseLines, if_neg hb, List.map_cons]
        rw [List.chain'_cons']
        refine ⟨?_, ih (idx + 1)⟩
        intro b hbmem
        have hb2 : b ∈ (parseLines (idx + 1) ls).map LogEntry.lineNumber :=
          List.mem_of_mem_head? hbmem
        rw [List.mem_map] at hb2
        obtain ⟨e, he, rfl⟩ := hb2
        have := parseLines_ge ls (idx + 1) e he
        simp only [parse_line]
        omega

/-- C7 counterexample: the claim says the `line_number` sequence is 1-based,
strictly increasing and gap-free. But `parse_output` skips blank lines while
still advancing the enumeration index, so the two entries parsed from
"first\n\nerror here" are numbered 1 and 3 — a gap where the blank line
was. -/
theorem claim_C7_counterexample :
    (parse_output "first\n\nerror here".toList).map LogEntry.lineNumber = [1, 3]
    ∧ ([1, 3] : List Nat) ≠ [1, 2] := by
  refine ⟨?_, by decide⟩
  simp [parse_output, splitNl, parseLines, parse_line, strip_ansi_codes, escChar,
    isBlankLine, pyIsSpace, rstrip, detect_log_level, containsSub, listStartsWith]

/-- C7 amended: after a completed execution the persisted log records are
numbered by the 1-based position of their source line in the raw output —
strictly increasing, but with gaps wherever a blank line was skipped (so not
gap-free, and not starting at 1 when the output starts blank); each entry's
content is its source line with ANSI escapes stripped and trailing whitespace
removed and its level heuristically classified (`parse_line`); and the
entries are persisted in at most one bulk write. -/
theorem claim_C7_amended (output : List Char) :
    List.Chain' (fun a b => a < b) ((parse_output output).map LogEntry.lineNumber)
    ∧ (∀ e ∈ parse_output output,
        1 ≤ e.lineNumber
        ∧ ∃ l, (splitNl output).get? (e.lineNumber - 1) = some l
            ∧ isBlankLine l = false ∧ e = parse_line l e.lineNumber)
    ∧ (bulkLogWrites (parse_output output)).length ≤ 1 := by
  refine ⟨parseLines_chain _ 1, ?_, ?_⟩
  · intro e he
    obtain ⟨i, l, h1, h2, h3, h4⟩ := parseLines_mem _ 1 e he
    have hi : e.lineNumber - 1 = i := by omega
    refine ⟨by omega, l, ?_, h3, ?_⟩
    · rw [hi]
      exact h1
    · rw [h2]
      exact h4
  · rw [bulkLogWrites]
    split <;> simp

/-- C7 amendment witness: two non-blank lines parse to consecutive numbers 1
and 2, which the amended theorem confirms are strictly increasing. -/
theorem claim_C7_witness :
    (parse_output "ok line\nbad line".toList).map LogEntry.lineNumber = [1, 2]
    ∧ List.Chain' (fun a b => a < b)
        ((parse_output "ok line\nbad line".toList).map LogEntry.lineNumber) := by
  refine ⟨?_, (claim_C7_amended ("ok line\nbad line".toList)).1⟩
  simp [parse_output, splitNl, parseLines, parse_line, strip_ansi_codes, escChar,
    isBlankLine, pyIsSpace, rstrip, detect_log_level, containsSub, listStartsWith]

end JadeHub
